import Mathlib

/-!
Verification of the SilentSocks sales-statistics extraction pipeline
(`src/data_processor.py`, function `process_sales_file`) and of its
persistence layer (`src/database.py`).

The spreadsheet grid produced by `pd.read_excel(..., header=None)` is
modelled as a list of rows of cells together with an explicit column
count `width`; a cell is `Option String` where `none` stands for a
missing/NaN cell.  The Python code only ever looks at cells through
`str(...)` (turning NaN into the literal string `"nan"`) or through
`pd.to_numeric(..., errors='coerce')` (turning unparsable cells into
NaN); both views are embedded below.  Accessing `row[j]` for a column
`j` that does not exist in the frame raises in Python; this is modelled
by `Except`, matching the `try/except` structure of the source.
-/

/-- A spreadsheet cell: `none` models a missing value (pandas NaN). -/
abbrev Cell := Option String

/-- `str(cell)` as applied by the source code: NaN prints as `"nan"`. -/
def strCell : Cell → String
  | none => "nan"
  | some s => s

/-- Whitespace as recognised by Python's `str.strip` / regex `\s` (ASCII part). -/
def isWs (c : Char) : Bool :=
  c == ' ' || c == '\t' || c == '\n' || c == '\r' || c == '\x0b' || c == '\x0c'

/-- Python `str.strip()` on a list of characters. -/
def stripChars (cs : List Char) : List Char :=
  ((cs.dropWhile isWs).reverse.dropWhile isWs).reverse

/-- Python `str.strip()`. -/
def pyStrip (s : String) : String := String.mk (stripChars s.data)

/-- Python `str.lower()` (ASCII). -/
def lowerStr (s : String) : String := String.mk (s.data.map Char.toLower)

/-- Python `str.isdigit()` (ASCII digits): nonempty and all digits. -/
def pyIsDigit (s : String) : Bool := !s.data.isEmpty && s.data.all Char.isDigit

/-- Does `needle` occur at the head of `hay`? -/
def subAt : List Char → List Char → Bool
  | [], _ => true
  | _ :: _, [] => false
  | a :: as, b :: bs => a == b && subAt as bs

/-- Does `needle` occur anywhere in `hay`?  (Python `needle in hay`.) -/
def hasSub (needle : List Char) : List Char → Bool
  | [] => subAt needle []
  | hay@(_ :: t) => subAt needle hay || hasSub needle t

/-- Python `needle in hay` on strings. -/
def strHasSub (hay needle : String) : Bool := hasSub needle.data hay.data

/-- Index of the first occurrence of `needle` in `hay` (Python `str.find`). -/
def findSub (needle : List Char) : List Char → Option Nat
  | [] => if subAt needle [] then some 0 else none
  | hay@(_ :: t) =>
    if subAt needle hay then some 0 else (findSub needle t).map (· + 1)

/-- The character for a decimal digit `d < 10`. -/
def digitChar (d : Nat) : Char := Char.ofNat (48 + d)

/-- Decimal digits of `n`, least significant first, with explicit fuel
(the fuel makes the function reduce inside the kernel; `natDigitsRev`
supplies enough fuel for every input). -/
def natDigitsRevAux : Nat → Nat → List Char
  | 0, _ => []
  | fuel + 1, n =>
    if n < 10 then [digitChar n]
    else digitChar (n % 10) :: natDigitsRevAux fuel (n / 10)

/-- Decimal digits of `n`, least significant first. -/
def natDigitsRev (n : Nat) : List Char := natDigitsRevAux (n + 1) n

/-- Python `str(n)` for a natural number, as a character list. -/
def natRepr (n : Nat) : List Char := (natDigitsRev n).reverse

/-- Value of a big-endian string of decimal digits (Python `int(s)`). -/
def digitsVal (cs : List Char) : Nat :=
  cs.foldl (fun a c => 10 * a + (c.toNat - 48)) 0

/-- Left-pad with zeros to width 5 (Python format spec `05d`). -/
def pad5 (cs : List Char) : List Char := List.replicate (5 - cs.length) '0' ++ cs

/-- The cleaned raw article code computed by `process_sales_file`
(`data_processor.py` lines 162-165): uppercase, remove every `'E'`,
strip surrounding whitespace, then keep only what precedes the first
`'.'` (Python `split('.')[0]`, applied when a dot is present). -/
def cleanId (s : String) : List Char :=
  (stripChars ((s.data.map Char.toUpper).filter (fun c => c != 'E'))).takeWhile
    (fun c => c != '.')

/-- Article-ID canonicalization of `process_sales_file`
(`data_processor.py` lines 160-170): `E` + the 5-zero-padded integer if
the cleaned code is all digits, else `E` + the cleaned code verbatim. -/
def formatArticleId (s : String) : String :=
  let raw := cleanId s
  if !raw.isEmpty && raw.all Char.isDigit then
    String.mk ('E' :: pad5 (natRepr (digitsVal raw)))
  else
    String.mk ('E' :: raw)

/-- Article-name cleaning of `process_sales_file` (`data_processor.py`
lines 172-188): everything before the first case-insensitive occurrence
of `"Silent Socks"` is discarded; if the marker is absent the name is
unchanged. -/
def cleanName (s : String) : String :=
  match findSub ("silent socks").data (s.data.map Char.toLower) with
  | some i => String.mk (s.data.drop i)
  | none => s

/-- An exact decimal number `man / 10 ^ exp`, the image of a spreadsheet
numeral under `pd.to_numeric`.  The representation is kept unnormalized
so that every operation computes by kernel reduction; value-level
statements go through `Dec.val`. -/
structure Dec where
  man : Int
  exp : Nat
deriving DecidableEq, Repr

/-- The rational value of a decimal. -/
def Dec.val (d : Dec) : ℚ := (d.man : ℚ) / 10 ^ d.exp

/-- The zero test used by the source's `quantity != 0` comparison
(a decimal is zero exactly when its mantissa is). -/
def Dec.isZero (d : Dec) : Bool := d.man == 0

/-- The literal `0.0` used by the source as default. -/
def Dec.zero : Dec := ⟨0, 0⟩

/-- Parse an unsigned decimal literal (digits, optionally `.` and more
digits, at least one digit in total), as accepted by
`pd.to_numeric(..., errors='coerce')` on the numeral fragment this
pipeline uses. -/
def parseUnsigned (cs : List Char) : Option Dec :=
  let ip := cs.takeWhile Char.isDigit
  let rest := cs.drop ip.length
  match rest with
  | [] => if ip.isEmpty then none else some ⟨digitsVal ip, 0⟩
  | '.' :: fp =>
    if fp.all Char.isDigit && !(ip.isEmpty && fp.isEmpty) then
      some ⟨digitsVal ip * 10 ^ fp.length + digitsVal fp, fp.length⟩
    else none
  | _ => none

/-- Parse a signed decimal literal. -/
def parseDec : List Char → Option Dec
  | '-' :: rest => (parseUnsigned rest).map (fun d => ⟨-d.man, d.exp⟩)
  | '+' :: rest => parseUnsigned rest
  | cs => parseUnsigned cs

/-- `pd.to_numeric(cell, errors='coerce')`: a missing cell stays
missing (NaN), an unparsable cell becomes missing (NaN), otherwise the
numeric value; NaN is modelled as `none`. -/
def toNumeric : Cell → Option Dec
  | none => none
  | some s => parseDec (stripChars s.data)

/-- Match the literal `pat` case-insensitively at the head of the text;
on success return the remaining text. -/
def matchCI : List Char → List Char → Option (List Char)
  | [], cs => some cs
  | _ :: _, [] => none
  | p :: ps, c :: cs => if p.toLower == c.toLower then matchCI ps cs else none

/-- The regex `Silent socks\s+(\d{2})(\d{2})(\d{2})` (with IGNORECASE)
tested at one position (`data_processor.py` line 80); on success the
derived date string `20YY-MM-DD`. -/
def markerDateAt (cs : List Char) : Option String :=
  match matchCI ("Silent socks").data cs with
  | none => none
  | some rest =>
    let n := (rest.takeWhile isWs).length
    if n == 0 then none
    else
      match rest.drop n with
      | y1 :: y2 :: m1 :: m2 :: d1 :: d2 :: _ =>
        if ([y1, y2, m1, m2, d1, d2].all Char.isDigit) then
          some (String.mk
            ['2', '0', y1, y2, '-', m1, m2, '-', d1, d2])
        else none
      | _ => none

/-- The fallback regex `(\d{2})(\d{2})(\d{2})-(\d{2})(\d{2})(\d{2})`
tested at one position (`data_processor.py` line 92); on success the
date built from the first three groups, `20YY-MM-DD`. -/
def rangeDateAt (cs : List Char) : Option String :=
  match cs with
  | a1 :: a2 :: a3 :: a4 :: a5 :: a6 :: '-' :: b1 :: b2 :: b3 :: b4 :: b5 :: b6 :: _ =>
    if ([a1, a2, a3, a4, a5, a6, b1, b2, b3, b4, b5, b6].all Char.isDigit) then
      some (String.mk ['2', '0', a1, a2, '-', a3, a4, '-', a5, a6])
    else none
  | _ => none

/-- `re.search`: try the pattern at every position, leftmost first. -/
def searchPos (f : List Char → Option String) : List Char → Option String
  | [] => f []
  | cs@(_ :: t) =>
    match f cs with
    | some r => some r
    | none => searchPos f t

/-- Period extraction of `process_sales_file` (`data_processor.py`
lines 73-98): the product-marker rule first, then the date-range
fallback, then the current processing date (`today`). -/
def extractFileDate (filename today : String) : String :=
  match searchPos markerDateAt filename.data with
  | some d => d
  | none =>
    match searchPos rangeDateAt filename.data with
    | some d => d
    | none => today

instance {ε α : Type} [DecidableEq ε] [DecidableEq α] : DecidableEq (Except ε α) :=
  fun x y =>
    match x, y with
    | Except.error e, Except.error f => decidable_of_iff (e = f) (by simp)
    | Except.error _, Except.ok _ => isFalse (by simp)
    | Except.ok _, Except.error _ => isFalse (by simp)
    | Except.ok a, Except.ok b => decidable_of_iff (a = b) (by simp)

/-- A sales record as emitted by `process_sales_file`
(`data_processor.py` lines 191-199). -/
structure SalesRecord where
  date : String
  customer_number : String
  article_id : String
  article_name : String
  quantity : Dec
  tb_amount : Dec
  sales_amount : Dec
deriving DecidableEq, Repr

/-- `row[j]` on a pandas row of a frame with `width` columns: a column
outside the frame raises (`KeyError`), a short row inside the frame
yields NaN. -/
def cellAt (width : Nat) (row : List Cell) (j : Nat) : Except String Cell :=
  if j < width then Except.ok (row.getD j none) else Except.error "KeyError"

/-- The body of the `try` block for one article row (`data_processor.py`
lines 153-199): reads columns 2, 3, 6 and 8 (a missing column raises and
the row is skipped, hence `none` when `width < 9`), coerces the numeric
cells, normalizes the article id and name, and emits a record only when
the quantity parsed and is non-zero; `tb_amount` and `sales_amount`
independently default to `0.0` when missing. -/
def extractRecord (width : Nat) (date cust col1 : String) (row : List Cell) :
    Option SalesRecord :=
  if width < 9 then none
  else
    match toNumeric (row.getD 3 none) with
    | some q =>
      if q.isZero then none
      else
        some { date := date
               customer_number := cust
               article_id := formatArticleId col1
               article_name := cleanName (strCell (row.getD 2 none))
               quantity := q
               tb_amount := (toNumeric (row.getD 6 none)).getD Dec.zero
               sales_amount := (toNumeric (row.getD 8 none)).getD Dec.zero }
    | none => none

/-- One iteration of the classification loop (`data_processor.py` lines
118-202), returning the updated current-customer context and the record
emitted by the row, if any.  Reading `row[0]` or `row[1]` happens
outside the `try` block, so a missing column there is a raised error. -/
def stepRow (width : Nat) (date : String) (cc : Option String) (row : List Cell) :
    Except String (Option String × Option SalesRecord) :=
  match cellAt width row 0, cellAt width row 1 with
  | Except.error e, _ => Except.error e
  | Except.ok _, Except.error e => Except.error e
  | Except.ok c0, Except.ok c1 =>
    let col0 := pyStrip (strCell c0)
    let col1 := pyStrip (strCell c1)
    if strHasSub (lowerStr col1) "totalt" then Except.ok (cc, none)
    else if pyIsDigit col0 && (col1 == "nan" || col1 == "") then
      Except.ok (some col0, none)
    else if strHasSub (lowerStr col1) "artikelnr" then Except.ok (cc, none)
    else
      match cc with
      | some cust =>
        if cust != "" && col1 != "nan" && col1 != "" then
          Except.ok (cc, extractRecord width date cust col1 row)
        else Except.ok (cc, none)
      | none => Except.ok (cc, none)

/-- The classification loop over the data rows. -/
def processRows (width : Nat) (date : String) :
    List (List Cell) → Option String → Except String (List SalesRecord)
  | [], _ => Except.ok []
  | r :: rs, cc =>
    match stepRow width date cc r with
    | Except.error e => Except.error e
    | Except.ok (cc2, orec) =>
      match processRows width date rs cc2 with
      | Except.error e => Except.error e
      | Except.ok rest =>
        Except.ok
          (match orec with
           | some x => x :: rest
           | none => rest)

/-- The header scan (`data_processor.py` lines 111-115): the index just
after the first row whose stripped first column equals `"Kundnr."`, or
`0` when no such row exists. -/
def findStartRow (width : Nat) : List (List Cell) → Except String Nat
  | [] => Except.ok 0
  | r :: rs =>
    match cellAt width r 0 with
    | Except.error e => Except.error e
    | Except.ok c0 =>
      if pyStrip (strCell c0) == "Kundnr." then Except.ok 1
      else
        match findStartRow width rs with
        | Except.error e => Except.error e
        | Except.ok 0 => Except.ok 0
        | Except.ok (Nat.succ k) => Except.ok (k + 2)

/-- `process_sales_file` (`data_processor.py` lines 58-207) on a grid of
`width` columns with the given source filename; `today` is the current
processing date used by the period-extraction fallback.  An uncaught
exception is an `Except.error` (the source re-raises it as
`ValueError`). -/
def processSalesFile (width : Nat) (rows : List (List Cell))
    (filename today : String) : Except String (List SalesRecord) :=
  let date := extractFileDate filename today
  match findStartRow width rows with
  | Except.error e => Except.error e
  | Except.ok start => processRows width date (rows.drop start) none

/-- Data rows reused by concrete scenarios below. -/
def hdrRow : List Cell := [some "Kundnr."]

def custNanRow : List Cell := [some "123", some "nan"]

def custEmptyRow : List Cell := [some "123", none]

def artRow7 : List Cell :=
  [none, some "7", some "thing", some "2", none, none, some "1.5", none, some "10"]

def artNanRow : List Cell :=
  [none, some "nan", some "thing", some "2", none, none, some "1.5", none, some "10"]

def artRow9005 : List Cell :=
  [none, some "E9005", some "x Silent Socks wool", some "3", none, none,
   some "15.5", none, some "120.0"]

def rec7 : SalesRecord :=
  { date := "2026-05-05", customer_number := "123", article_id := "E00007",
    article_name := "thing", quantity := ⟨2, 0⟩, tb_amount := ⟨15, 1⟩,
    sales_amount := ⟨10, 0⟩ }

def rec9005 : SalesRecord :=
  { date := "2026-02-03", customer_number := "100", article_id := "E09005",
    article_name := "Silent Socks wool", quantity := ⟨3, 0⟩,
    tb_amount := ⟨155, 1⟩, sales_amount := ⟨1200, 1⟩ }

/-- A row of the `customers` table (`database.py` lines 16-26):
`customer_number` is the primary key, stored as text; the remaining
columns are nullable text (`zip_code` and the key are passed through
`str(...)` by `save_customers`, hence plain strings). -/
structure Customer where
  customer_number : String
  name : Option String
  address : Option String
  zip_code : String
  city : Option String
  country : Option String
  customer_group : Option String
deriving DecidableEq, Repr

/-- One `INSERT ... ON CONFLICT(customer_number) DO UPDATE SET ...`
(`database.py` lines 75-93): replace every non-key field of the row with
the conflicting key, or append a fresh row.  The primary-key constraint
guarantees at most one stored row can match. -/
def upsertOne : List Customer → Customer → List Customer
  | [], c => [c]
  | r :: rs, c =>
    if r.customer_number == c.customer_number then c :: rs
    else r :: upsertOne rs c

/-- `save_customers` (`database.py` lines 61-96): early return on an
empty frame, otherwise upsert each record in order. -/
def save_customers (df : List Customer) (tbl : List Customer) : List Customer :=
  if df.isEmpty then tbl else df.foldl upsertOne tbl

/-- The stored keys of the customers table. -/
def custKeys (tbl : List Customer) : List String := tbl.map (·.customer_number)

/-- A row of the `sales` table (`database.py` lines 35-48): the record
fields plus the `source_file` provenance column. -/
structure StoredSale where
  date : String
  customer_number : String
  article_id : String
  article_name : String
  quantity : Dec
  tb_amount : Dec
  sales_amount : Dec
  source_file : String
deriving DecidableEq, Repr

/-- Tag a parsed record with its provenance
(`data_to_save['source_file'] = source_filename`, `database.py` line 109). -/
def tagRecord (src : String) (r : SalesRecord) : StoredSale :=
  { date := r.date, customer_number := r.customer_number,
    article_id := r.article_id, article_name := r.article_name,
    quantity := r.quantity, tb_amount := r.tb_amount,
    sales_amount := r.sales_amount, source_file := src }

/-- `save_sales_data` (`database.py` lines 98-116): early return on an
empty frame, otherwise `to_sql(..., if_exists='append')` — a plain
append with no uniqueness constraint. -/
def save_sales_data (df : List SalesRecord) (src : String)
    (tbl : List StoredSale) : List StoredSale :=
  if df.isEmpty then tbl else tbl ++ df.map (tagRecord src)

/-- A row of the `settings` key-value table (`database.py` lines 51-56). -/
abbrev Setting := String × String

/-- The persistent store: the three tables created by `init_db`. -/
structure DB where
  customers : List Customer
  sales : List StoredSale
  settings : List Setting
deriving DecidableEq, Repr

/-- The result row of the read-model join of `get_all_data`
(`database.py` lines 124-140): sales columns, `sales_amount` aliased a
second time as `total_amount`, and the customer columns of a `LEFT JOIN`
(null when the customer is absent). -/
structure JoinedRow where
  date : String
  article_id : String
  article : String
  customer_number : String
  quantity : Dec
  tb_amount : Dec
  sales_amount : Dec
  total_amount : Dec
  customer : Option String
  country : Option String
  customer_group : Option String
  city : Option String
deriving DecidableEq, Repr

/-- The SQL query of `get_all_data`: sales left-joined with customers on
`customer_number`. -/
def joinQuery (db : DB) : List JoinedRow :=
  db.sales.map (fun s =>
    let c := db.customers.find? (fun cu => cu.customer_number == s.customer_number)
    { date := s.date, article_id := s.article_id, article := s.article_name,
      customer_number := s.customer_number, quantity := s.quantity,
      tb_amount := s.tb_amount, sales_amount := s.sales_amount,
      total_amount := s.sales_amount,
      customer := c.bind (·.name), country := c.bind (·.country),
      customer_group := c.bind (·.customer_group), city := c.bind (·.city) })

/-- `get_all_data` (`database.py` lines 118-151).  `fault` injects a
persistence failure (constraint violation, I/O failure) into the query;
the source wraps the whole body in `try/except`, prints the error and
substitutes an empty frame, so the function always returns normally. -/
def get_all_data (db : DB) (fault : Option String) :
    Except String (List JoinedRow) :=
  match fault with
  | some _ => Except.ok []
  | none => Except.ok (joinQuery db)

/-- `save_sales_data` with a persistence failure injected into the
`to_sql` write: the source has no `try/except`, so the failure
propagates to the caller (after the empty-frame early return). -/
def save_sales_data_fault (df : List SalesRecord) (src : String)
    (tbl : List StoredSale) (fault : Option String) :
    Except String (List StoredSale) :=
  if df.isEmpty then Except.ok tbl
  else
    match fault with
    | some e => Except.error e
    | none => Except.ok (save_sales_data df src tbl)

/-- `clear_database` (`database.py` lines 161-168): `DELETE FROM sales`
and `DELETE FROM customers`; the settings table is not touched. -/
def clear_database (db : DB) : DB :=
  { db with sales := [], customers := [] }

/-- `get_setting` (`database.py` lines 182-189):
`SELECT value FROM settings WHERE key = ?`. -/
def get_setting (db : DB) (key : String) : Option String :=
  (db.settings.find? (fun p => p.1 == key)).map (·.2)

/-- `save_setting` (`database.py` lines 170-180): key-value upsert. -/
def save_setting (db : DB) (key value : String) : DB :=
  { db with settings :=
      if db.settings.any (fun p => p.1 == key) then
        db.settings.map (fun p => if p.1 == key then (key, value) else p)
      else db.settings ++ [(key, value)] }

/-- `delete_setting` (`database.py` lines 191-197). -/
def delete_setting (db : DB) (key : String) : DB :=
  { db with settings := db.settings.filter (fun p => !(p.1 == key)) }

/-- A concrete store with one sales row, no customers, one setting. -/
def dbEx : DB :=
  { customers := [], sales := [tagRecord "a.xlsx" rec7],
    settings := [("gemini_api_key", "v")] }

/-- The canonicalization exactly as the specification's words describe
it (spec section 4.4, claim C3), written for comparison with
`formatArticleId`: strip surrounding whitespace and any leading
single-letter prefix (case-insensitive), then, if the remainder is a
decimal-looking numeric string (possibly with a fractional tail),
truncate to the integer part and render `E` + the 5-zero-padded
integer; otherwise `E` + the cleaned remainder verbatim. -/
def specCanonicalizeArticleId (s : String) : String :=
  let t := stripChars s.data
  let rem :=
    match t with
    | c :: rest => if c.isAlpha then rest else t
    | [] => t
  let ip := rem.takeWhile (fun c => c != '.')
  let fp := rem.drop ip.length
  let numeric :=
    !ip.isEmpty && ip.all Char.isDigit &&
      (fp.isEmpty || (fp.headD ' ' == '.' && (fp.drop 1).all Char.isDigit))
  if numeric then String.mk ('E' :: pad5 (natRepr (digitsVal ip)))
  else String.mk ('E' :: rem)

/-- The canonical article-ID shape produced by the digit branch of the
canonicalization: `E` followed by the integer zero-padded to 5 digits. -/
def ePad (n : Nat) : String := String.mk ('E' :: pad5 (natRepr n))

theorem Dec.val_eq_zero_iff (d : Dec) : d.val = 0 ↔ d.man = 0 := by
  unfold Dec.val
  rw [div_eq_zero_iff]
  constructor
  · rintro (h | h)
    · exact_mod_cast h
    · exact absurd h (pow_ne_zero _ (by norm_num))
  · intro h
    exact Or.inl (by exact_mod_cast h)

theorem Dec.isZero_iff (d : Dec) : d.isZero = true ↔ d.val = 0 := by
  rw [Dec.val_eq_zero_iff]
  simp [Dec.isZero]

theorem extractRecord_some {width : Nat} {date cust col1 : String}
    {row : List Cell} {rec : SalesRecord}
    (h : extractRecord width date cust col1 row = some rec) :
    rec.quantity.isZero = false ∧ rec.date = date ∧
    toNumeric (row.getD 3 none) = some rec.quantity ∧
    rec.tb_amount = (toNumeric (row.getD 6 none)).getD Dec.zero ∧
    rec.sales_amount = (toNumeric (row.getD 8 none)).getD Dec.zero := by
  unfold extractRecord at h
  split at h
  · exact absurd h (by simp)
  · cases hq : toNumeric (row.getD 3 none) with
    | none => rw [hq] at h; exact absurd h (by simp)
    | some q =>
      rw [hq] at h
      dsimp only at h
      split at h
      · exact absurd h (by simp)
      · rename_i hz
        injection h with h2
        subst h2
        exact ⟨by simpa using hz, rfl, rfl, rfl, rfl⟩

theorem stepRow_ok_some {width : Nat} {date : String} {cc : Option String}
    {row : List Cell} {cc2 : Option String} {rec : SalesRecord}
    (h : stepRow width date cc row = Except.ok (cc2, some rec)) :
    ∃ cust col1, extractRecord width date cust col1 row = some rec := by
  unfold stepRow at h
  cases h0 : cellAt width row 0 with
  | error e => rw [h0] at h; exact absurd h (by simp)
  | ok c0 =>
    cases h1 : cellAt width row 1 with
    | error e => rw [h0, h1] at h; exact absurd h (by simp)
    | ok c1 =>
      rw [h0, h1] at h
      dsimp only at h
      split at h
      · exact absurd h (by simp)
      split at h
      · exact absurd h (by simp)
      split at h
      · exact absurd h (by simp)
      cases cc with
      | none => dsimp only at h; exact absurd h (by simp)
      | some cust =>
        dsimp only at h
        split at h
        · injection h with h2
          have h3 := congrArg Prod.snd h2
          dsimp only at h3
          exact ⟨cust, pyStrip (strCell c1), h3⟩
        · exact absurd h (by simp)

theorem processRows_mem {width : Nat} {date : String} :
    ∀ {rows : List (List Cell)} {cc : Option String} {recs : List SalesRecord},
      processRows width date rows cc = Except.ok recs →
      ∀ {r : SalesRecord}, r ∈ recs →
      ∃ row cc0 cc1, stepRow width date cc0 row = Except.ok (cc1, some r) := by
  intro rows
  induction rows with
  | nil =>
    intro cc recs h r hr
    injection h with h2
    subst h2
    exact absurd hr (by simp)
  | cons row rs ih =>
    intro cc recs h r hr
    unfold processRows at h
    cases hs : stepRow width date cc row with
    | error e => rw [hs] at h; exact absurd h (by simp)
    | ok p =>
      rw [hs] at h
      obtain ⟨cc2, orec⟩ := p
      dsimp only at h
      cases hp : processRows width date rs cc2 with
      | error e => rw [hp] at h; exact absurd h (by simp)
      | ok rest =>
        rw [hp] at h
        dsimp only at h
        injection h with h2
        subst h2
        cases orec with
        | some x =>
          rcases List.mem_cons.mp hr with h3 | h3
          · subst h3; exact ⟨row, cc, cc2, hs⟩
          · exact ih hp h3
        | none => exact ih hp hr

theorem stepRow_total {width : Nat} {date : String} {cc : Option String}
    {row : List Cell} (h : 2 ≤ width) :
    ∃ res, stepRow width date cc row = Except.ok res := by
  unfold stepRow cellAt
  rw [if_pos (by omega : (0 : Nat) < width), if_pos (by omega : (1 : Nat) < width)]
  dsimp only
  split
  · exact ⟨_, rfl⟩
  split
  · exact ⟨_, rfl⟩
  split
  · exact ⟨_, rfl⟩
  cases cc with
  | none => exact ⟨_, rfl⟩
  | some cust =>
    dsimp only
    split
    · exact ⟨_, rfl⟩
    · exact ⟨_, rfl⟩

theorem processSalesFile_mem {width : Nat} {rows : List (List Cell)}
    {filename today : String} {recs : List SalesRecord}
    (h : processSalesFile width rows filename today = Except.ok recs)
    {r : SalesRecord} (hr : r ∈ recs) :
    ∃ row cc0 cc1,
      stepRow width (extractFileDate filename today) cc0 row =
        Except.ok (cc1, some r) := by
  unfold processSalesFile at h
  cases hf : findStartRow width rows with
  | error e => rw [hf] at h; exact absurd h (by simp)
  | ok start =>
    rw [hf] at h
    exact processRows_mem h hr

theorem findStartRow_no_marker {width : Nat} (hw : 1 ≤ width) :
    ∀ rows : List (List Cell),
      (∀ row ∈ rows, pyStrip (strCell (row.getD 0 none)) ≠ "Kundnr.") →
      findStartRow width rows = Except.ok 0 := by
  intro rows
  induction rows with
  | nil => intro _; rfl
  | cons r rs ih =>
    intro hall
    unfold findStartRow
    rw [cellAt, if_pos (by omega : (0 : Nat) < width)]
    dsimp only
    rw [if_neg (by
      have h5 := hall r (List.mem_cons_self r rs)
      intro hc
      exact h5 (by simpa using hc))]
    rw [ih (fun row hr => hall row (List.mem_cons_of_mem _ hr))]

/-- C1: every record emitted by `process_sales_file` has a present,
non-zero quantity; an article row whose quantity cell is zero or
unparsable yields no record — and the classification loop itself raises
no error on such rows; `tb_amount` and `sales_amount` independently
default to `0.0` when their cells are unparsable or absent. -/
theorem C1_quantity_invariant :
    (∀ (width : Nat) (rows : List (List Cell)) (filename today : String)
        (recs : List SalesRecord),
        processSalesFile width rows filename today = Except.ok recs →
        ∀ r ∈ recs, r.quantity.val ≠ 0)
  ∧ (∀ (width : Nat) (date cust col1 : String) (row : List Cell),
        (toNumeric (row.getD 3 none) = none ∨
          (∃ q, toNumeric (row.getD 3 none) = some q ∧ q.val = 0)) →
        extractRecord width date cust col1 row = none)
  ∧ (∀ (width : Nat) (date : String) (cc : Option String) (row : List Cell),
        2 ≤ width → ∃ res, stepRow width date cc row = Except.ok res)
  ∧ (∀ (width : Nat) (date cust col1 : String) (row : List Cell)
        (rec : SalesRecord),
        extractRecord width date cust col1 row = some rec →
        rec.tb_amount = (toNumeric (row.getD 6 none)).getD Dec.zero ∧
        rec.sales_amount = (toNumeric (row.getD 8 none)).getD Dec.zero) := by
  refine ⟨?_, ?_, ?_, ?_⟩
  · intro width rows filename today recs h r hr
    obtain ⟨row, cc0, cc1, hs⟩ := processSalesFile_mem h hr
    obtain ⟨cust, col1, he⟩ := stepRow_ok_some hs
    have h1 := (extractRecord_some he).1
    intro hv
    rw [← Dec.isZero_iff] at hv
    rw [h1] at hv
    exact absurd hv (by simp)
  · intro width date cust col1 row h
    unfold extractRecord
    split
    · rfl
    · rcases h with h | ⟨q, hq, hv⟩
      · rw [h]
      · rw [hq]
        dsimp only
        rw [if_pos ((Dec.isZero_iff q).mpr hv)]
  · intro width date cc row h
    exact stepRow_total h
  · intro width date cust col1 row rec h
    exact ⟨(extractRecord_some h).2.2.2.1, (extractRecord_some h).2.2.2.2⟩

/-- Witness for C1 at concrete inputs: the single record of a concrete
grid has non-zero quantity; a zero-quantity article row and an
unparsable-quantity article row emit nothing; a step never errors on a
9-column grid; and the concrete record's `tb_amount` is the parsed
column 6. -/
theorem C1_quantity_invariant_witness :
    rec7.quantity.val ≠ 0
  ∧ extractRecord 9 "d" "c" "7"
      [none, some "7", some "x", some "0", none, none, none, none, none] = none
  ∧ extractRecord 9 "d" "c" "7"
      [none, some "7", some "x", some "abc", none, none, none, none, none] = none
  ∧ (∃ res, stepRow 9 "d" none hdrRow = Except.ok res)
  ∧ rec7.tb_amount = (toNumeric (artRow7.getD 6 none)).getD Dec.zero := by
  refine ⟨?_, ?_, ?_, ?_, ?_⟩
  · exact C1_quantity_invariant.1 9 [hdrRow, custEmptyRow, artRow7] "sales.xlsx"
      "2026-05-05" [rec7] (by decide) rec7 (by simp)
  · exact C1_quantity_invariant.2.1 9 "d" "c" "7" _
      (Or.inr ⟨⟨0, 0⟩, by decide, by norm_num [Dec.val]⟩)
  · exact C1_quantity_invariant.2.1 9 "d" "c" "7" _ (Or.inl (by decide))
  · exact C1_quantity_invariant.2.2.1 9 "d" none hdrRow (by omega)
  · exact (C1_quantity_invariant.2.2.2 9 "2026-05-05" "123" "7" artRow7 rec7
      (by decide)).1

/-- C2 (counterexample): a grid in which no row's first column equals
`"Kundnr."` can still produce records — the start index merely defaults
to `0` and the whole grid is scanned, so a digit-keyed row followed by
an article row yields a record. -/
theorem C2_no_marker_counterexample :
    pyStrip (strCell (([some "100"] : List Cell).getD 0 none)) ≠ "Kundnr."
  ∧ pyStrip (strCell (artRow9005.getD 0 none)) ≠ "Kundnr."
  ∧ processSalesFile 9 [[some "100"], artRow9005] "f.xlsx" "2026-02-03" =
      Except.ok [rec9005]
  ∧ processSalesFile 9 [[some "100"], artRow9005] "f.xlsx" "2026-02-03" ≠
      Except.ok [] :=
  ⟨by decide, by decide, by decide, by decide⟩

/-- C2 (amended): when no row's first column equals `"Kundnr."` the
start row defaults to `0` and classification simply scans the whole grid
(so records may still be produced); an empty grid yields zero records
and no error. -/
theorem C2_no_marker_amended :
    (∀ (width : Nat) (filename today : String),
        processSalesFile width [] filename today = Except.ok [])
  ∧ (∀ (width : Nat) (rows : List (List Cell)), 1 ≤ width →
        (∀ row ∈ rows, pyStrip (strCell (row.getD 0 none)) ≠ "Kundnr.") →
        findStartRow width rows = Except.ok 0) := by
  constructor
  · intro width filename today
    rfl
  · intro width rows hw hall
    exact findStartRow_no_marker hw rows hall

/-- Witness for C2 (amended) at concrete inputs. -/
theorem C2_no_marker_amended_witness :
    processSalesFile 3 [] "a.xlsx" "2020-01-01" = Except.ok []
  ∧ findStartRow 9 [[some "100"], artRow9005] = Except.ok 0 :=
  ⟨C2_no_marker_amended.1 3 "a.xlsx" "2020-01-01",
   C2_no_marker_amended.2 9 [[some "100"], artRow9005] (by omega) (by decide)⟩

/-- C4: the period is derived from the filename by the ordered rules —
product marker + `YYMMDD` first, then the first group of any
`YYMMDD-YYMMDD` range, then the current processing date — the scenario
filename yields `"2025-01-01"`, and every emitted record carries the
single file-derived date. -/
theorem C4_period_extraction :
    (∀ today : String,
        extractFileDate "Report Silent socks 250101-250131.xlsx" today =
          "2025-01-01")
  ∧ (∀ (width : Nat) (rows : List (List Cell)) (filename today : String)
        (recs : List SalesRecord),
        processSalesFile width rows filename today = Except.ok recs →
        ∀ r ∈ recs, r.date = extractFileDate filename today)
  ∧ (∀ filename today : String,
        searchPos markerDateAt filename.data = none →
        searchPos rangeDateAt filename.data = none →
        extractFileDate filename today = today) := by
  refine ⟨?_, ?_, ?_⟩
  · intro today
    rfl
  · intro width rows filename today recs h r hr
    obtain ⟨row, cc0, cc1, hs⟩ := processSalesFile_mem h hr
    obtain ⟨cust, col1, he⟩ := stepRow_ok_some hs
    exact (extractRecord_some he).2.1
  · intro filename today h1 h2
    unfold extractFileDate
    rw [h1, h2]

/-- Witness for C4 at concrete inputs. -/
theorem C4_period_extraction_witness :
    extractFileDate "Report Silent socks 250101-250131.xlsx" "1999-09-09" =
      "2025-01-01"
  ∧ rec7.date = extractFileDate "sales.xlsx" "2026-05-05"
  ∧ extractFileDate "f.xlsx" "2026-02-03" = "2026-02-03" :=
  ⟨C4_period_extraction.1 "1999-09-09",
   C4_period_extraction.2.1 9 [hdrRow, custEmptyRow, artRow7] "sales.xlsx"
     "2026-05-05" [rec7] (by decide) rec7 (by simp),
   C4_period_extraction.2.2 "f.xlsx" "2026-02-03" (by decide) (by decide)⟩

theorem custKeys_cons (r : Customer) (rs : List Customer) :
    custKeys (r :: rs) = r.customer_number :: custKeys rs := rfl

theorem mem_custKeys_upsertOne {tbl : List Customer} {c : Customer} {k : String}
    (h : k ∈ custKeys (upsertOne tbl c)) :
    k = c.customer_number ∨ k ∈ custKeys tbl := by
  induction tbl with
  | nil => exact Or.inl (by simpa [upsertOne, custKeys] using h)
  | cons r rs ih =>
    unfold upsertOne at h
    split at h
    · rw [custKeys_cons] at h
      rcases List.mem_cons.mp h with h2 | h2
      · exact Or.inl h2
      · exact Or.inr (by rw [custKeys_cons]; exact List.mem_cons_of_mem _ h2)
    · rw [custKeys_cons] at h
      rcases List.mem_cons.mp h with h2 | h2
      · exact Or.inr (by rw [custKeys_cons, h2]; exact List.mem_cons_self _ _)
      · rcases ih h2 with h3 | h3
        · exact Or.inl h3
        · exact Or.inr (by rw [custKeys_cons]; exact List.mem_cons_of_mem _ h3)

theorem nodup_upsertOne {tbl : List Customer} {c : Customer}
    (h : (custKeys tbl).Nodup) : (custKeys (upsertOne tbl c)).Nodup := by
  induction tbl with
  | nil => simp [upsertOne, custKeys]
  | cons r rs ih =>
    rw [custKeys_cons, List.nodup_cons] at h
    unfold upsertOne
    split
    · rename_i heq
      have hkey : r.customer_number = c.customer_number := by simpa using heq
      rw [custKeys_cons, List.nodup_cons]
      exact ⟨by rw [← hkey]; exact h.1, h.2⟩
    · rename_i hne
      rw [custKeys_cons, List.nodup_cons]
      refine ⟨?_, ih h.2⟩
      intro hmem
      rcases mem_custKeys_upsertOne hmem with h2 | h2
      · exact absurd h2 (by simpa using hne)
      · exact h.1 h2

theorem filter_upsertOne {tbl : List Customer} {c : Customer}
    (h : (custKeys tbl).Nodup) :
    (upsertOne tbl c).filter
      (fun r => r.customer_number == c.customer_number) = [c] := by
  induction tbl with
  | nil => simp [upsertOne]
  | cons r rs ih =>
    rw [custKeys_cons, List.nodup_cons] at h
    unfold upsertOne
    split
    · rename_i heq
      have hkey : r.customer_number = c.customer_number := by simpa using heq
      rw [List.filter_cons, if_pos (by simp)]
      have hnil : rs.filter (fun x => x.customer_number == c.customer_number) = [] := by
        rw [List.filter_eq_nil_iff]
        intro x hx hbeq
        have hx2 : x.customer_number = c.customer_number := by simpa using hbeq
        refine h.1 ?_
        rw [hkey, ← hx2]
        exact List.mem_map_of_mem _ hx
      rw [hnil]
    · rename_i hne
      rw [List.filter_cons, if_neg hne]
      exact ih h.2

theorem nodup_foldl_upsertOne :
    ∀ (df tbl : List Customer), (custKeys tbl).Nodup →
      (custKeys (df.foldl upsertOne tbl)).Nodup
  | [], _, h => h
  | c :: cs, tbl, h => nodup_foldl_upsertOne cs (upsertOne tbl c) (nodup_upsertOne h)

/-- C5: the customers table keeps at most one row per `customer_number`
under the upsert; two imports of the same key leave exactly one stored
row carrying the second import's values (full replace, not merge); an
empty import is a no-op. -/
theorem C5_customer_upsert :
    (∀ tbl : List Customer, save_customers [] tbl = tbl)
  ∧ (∀ (tbl df : List Customer), (custKeys tbl).Nodup →
        (custKeys (save_customers df tbl)).Nodup)
  ∧ (∀ (tbl : List Customer) (c1 c2 : Customer), (custKeys tbl).Nodup →
        c1.customer_number = c2.customer_number →
        (save_customers [c2] (save_customers [c1] tbl)).filter
          (fun r => r.customer_number == c2.customer_number) = [c2]) := by
  refine ⟨?_, ?_, ?_⟩
  · intro tbl
    rfl
  · intro tbl df h
    unfold save_customers
    split
    · exact h
    · exact nodup_foldl_upsertOne df tbl h
  · intro tbl c1 c2 h hkey
    show ((upsertOne (upsertOne tbl c1) c2).filter
      (fun r => r.customer_number == c2.customer_number)) = [c2]
    exact filter_upsertOne (nodup_upsertOne h)

/-- Witness for C5 at concrete inputs. -/
theorem C5_customer_upsert_witness :
    save_customers []
      [⟨"10", some "A", none, "111", none, none, none⟩] =
      [⟨"10", some "A", none, "111", none, none, none⟩]
  ∧ (custKeys (save_customers
        [⟨"10", some "B", none, "222", none, none, none⟩]
        [⟨"10", some "A", none, "111", none, none, none⟩])).Nodup
  ∧ (save_customers [⟨"10", some "B", none, "222", none, none, none⟩]
        (save_customers [⟨"10", some "A", none, "111", none, none, none⟩] [])).filter
        (fun r => r.customer_number == "10") =
      [⟨"10", some "B", none, "222", none, none, none⟩] :=
  ⟨C5_customer_upsert.1 _,
   C5_customer_upsert.2.1 [⟨"10", some "A", none, "111", none, none, none⟩]
     [⟨"10", some "B", none, "222", none, none, none⟩] (by decide),
   C5_customer_upsert.2.2 [] ⟨"10", some "A", none, "111", none, none, none⟩
     ⟨"10", some "B", none, "222", none, none, none⟩ (by decide) rfl⟩

/-- C6: the sales append is cumulative and non-deduplicating — every
appended row is the provenance-tagged image of an input record, importing
the same frame twice adds exactly twice its record count, and an empty
frame is a no-op. -/
theorem C6_sales_append :
    (∀ (src : String) (tbl : List StoredSale), save_sales_data [] src tbl = tbl)
  ∧ (∀ (df : List SalesRecord) (src : String) (tbl : List StoredSale),
        (save_sales_data df src (save_sales_data df src tbl)).length =
          tbl.length + 2 * df.length)
  ∧ (∀ (df : List SalesRecord) (src : String) (tbl : List StoredSale)
        (x : StoredSale), x ∈ save_sales_data df src tbl →
        x ∈ tbl ∨ (x.source_file = src ∧ ∃ r ∈ df, x = tagRecord src r)) := by
  refine ⟨?_, ?_, ?_⟩
  · intro src tbl
    rfl
  · intro df src tbl
    unfold save_sales_data
    by_cases he : df.isEmpty
    · rw [if_pos he, if_pos he]
      rw [List.isEmpty_iff] at he
      simp [he]
    · rw [if_neg he, if_neg he]
      simp only [List.length_append, List.length_map]
      ring
  · intro df src tbl x hx
    unfold save_sales_data at hx
    split at hx
    · exact Or.inl hx
    · rcases List.mem_append.mp hx with h2 | h2
      · exact Or.inl h2
      · obtain ⟨r, hr, hxr⟩ := List.mem_map.mp h2
        exact Or.inr ⟨by rw [← hxr]; rfl, r, hr, hxr.symm⟩

/-- Witness for C6 at concrete inputs. -/
theorem C6_sales_append_witness :
    save_sales_data [] "a.xlsx" [tagRecord "a.xlsx" rec7] =
      [tagRecord "a.xlsx" rec7]
  ∧ (save_sales_data [rec7] "a.xlsx" (save_sales_data [rec7] "a.xlsx" [])).length =
      ([] : List StoredSale).length + 2 * [rec7].length
  ∧ (tagRecord "a.xlsx" rec7 ∈ ([] : List StoredSale) ∨
      ((tagRecord "a.xlsx" rec7).source_file = "a.xlsx" ∧
        ∃ r ∈ [rec7], tagRecord "a.xlsx" rec7 = tagRecord "a.xlsx" r)) :=
  ⟨C6_sales_append.1 "a.xlsx" _,
   C6_sales_append.2.1 [rec7] "a.xlsx" [],
   C6_sales_append.2.2 [rec7] "a.xlsx" [] (tagRecord "a.xlsx" rec7) (by decide)⟩

/-- C8 (counterexample): an injected I/O failure during the read-model
join is not propagated — `get_all_data` swallows it and returns a normal,
empty result, although the same store yields a non-empty join when the
query succeeds. -/
theorem C8_error_propagation_counterexample :
    get_all_data dbEx (some "disk read failure") = Except.ok []
  ∧ joinQuery dbEx ≠ []
  ∧ get_all_data dbEx none = Except.ok (joinQuery dbEx) :=
  ⟨rfl, by decide, rfl⟩

/-- C8 (amended): write-side persistence failures propagate to the caller
unchanged (fatal, no retry, no default result), but the read-model join
`get_all_data` catches every failure and substitutes an empty result. -/
theorem C8_error_propagation_amended :
    (∀ (df : List SalesRecord) (src : String) (tbl : List StoredSale)
        (e : String), df ≠ [] →
        save_sales_data_fault df src tbl (some e) = Except.error e)
  ∧ (∀ (df : List SalesRecord) (src : String) (tbl : List StoredSale),
        save_sales_data_fault df src tbl none =
          Except.ok (save_sales_data df src tbl))
  ∧ (∀ (db : DB) (e : String), get_all_data db (some e) = Except.ok [])
  ∧ (∀ db : DB, get_all_data db none = Except.ok (joinQuery db)) := by
  refine ⟨?_, ?_, ?_, ?_⟩
  · intro df src tbl e hne
    unfold save_sales_data_fault
    rw [if_neg (by simpa [List.isEmpty_iff] using hne)]
  · intro df src tbl
    unfold save_sales_data_fault
    by_cases he : df.isEmpty
    · rw [if_pos he]
      unfold save_sales_data
      rw [if_pos he]
    · rw [if_neg he]
  · intro db e
    rfl
  · intro db
    rfl

/-- Witness for C8 (amended) at concrete inputs. -/
theorem C8_error_propagation_amended_witness :
    save_sales_data_fault [rec7] "a.xlsx" [] (some "disk write failure") =
      Except.error "disk write failure"
  ∧ get_all_data dbEx (some "database is locked") = Except.ok [] :=
  ⟨C8_error_propagation_amended.1 [rec7] "a.xlsx" [] "disk write failure" (by simp),
   C8_error_propagation_amended.2.2.1 dbEx "database is locked"⟩

/-- C10: `clear_database` empties the sales and customers tables and
leaves the settings store untouched — `get_setting` answers identically
before and after the wipe. -/
theorem C10_clear_frame :
    (∀ (db : DB) (key : String),
        get_setting (clear_database db) key = get_setting db key)
  ∧ (∀ db : DB,
        (clear_database db).sales = [] ∧ (clear_database db).customers = []) :=
  ⟨fun _ _ => rfl, fun _ => ⟨rfl, rfl⟩⟩

/-- C3 (counterexample): the code does not strip "any leading
single-letter prefix" — it removes every occurrence of the letter `E`
and keeps other letters, so the raw code `"X123"` canonicalizes to
`"EX123"` where the claim's description demands `"E00123"`. -/
theorem C3_canonicalization_counterexample :
    formatArticleId "X123" = "EX123"
  ∧ specCanonicalizeArticleId "X123" = "E00123"
  ∧ ("EX123" : String) ≠ "E00123" :=
  ⟨by decide, by decide, by decide⟩

/-- C3 (amended): canonicalization uppercases the raw code, removes
every occurrence of the letter `E` (wherever it appears; other letters
are kept), strips surrounding whitespace and truncates at the first
`'.'`; an all-digit remainder is rendered as `E` + the integer
zero-padded to 5 digits, any other remainder as `E` + the remainder
verbatim — in particular `"E9005.0" → "E09005"`, `"AB12" → "EAB12"`,
`"1E2" → "E00012"` (non-leading `E` removed), `"X123" → "EX123"`
(non-`E` letter kept), and every output starts with `'E'`. -/
theorem C3_canonicalization_amended :
    formatArticleId "E9005.0" = "E09005"
  ∧ formatArticleId "AB12" = "EAB12"
  ∧ formatArticleId "1E2" = "E00012"
  ∧ formatArticleId "X123" = "EX123"
  ∧ (∀ s : String, (formatArticleId s).data.head? = some 'E') := by
  refine ⟨by decide, by decide, by decide, by decide, ?_⟩
  intro s
  unfold formatArticleId
  dsimp only
  split <;> rfl

/-- C7 (counterexample): the classifier compares stringified cells with
the literal string `"nan"`, so a cell whose actual text is `"nan"`
behaves exactly like an empty cell — a digit-keyed row with literal
`"nan"` in column 1 IS classified as a customer-header row (the current
customer becomes `"123"` and no record is emitted), and an article row
whose column 1 reads `"nan"` IS skipped as empty. -/
theorem C7_nan_sentinel_counterexample :
    stepRow 9 "d" none custNanRow = Except.ok (some "123", none)
  ∧ stepRow 9 "d" (some "77") artNanRow = Except.ok (some "77", none) :=
  ⟨by decide, by decide⟩

/-- C7 (amended): empty cells are stringified to the literal `"nan"`,
so a cell whose textual content is literally `"nan"` is
indistinguishable from a genuinely missing cell: the same grid parses to
the same single record whether the customer row carries a literal
`"nan"` or an empty cell in column 1, and an article row whose column 1
is the literal text `"nan"` is skipped exactly like an empty one. -/
theorem C7_nan_sentinel_amended :
    processSalesFile 9 [hdrRow, custNanRow, artRow7] "sales.xlsx" "2026-05-05" =
      Except.ok [rec7]
  ∧ processSalesFile 9 [hdrRow, custEmptyRow, artRow7] "sales.xlsx" "2026-05-05" =
      Except.ok [rec7]
  ∧ processSalesFile 9 [hdrRow, custEmptyRow, artNanRow] "sales.xlsx" "2026-05-05" =
      Except.ok []
  ∧ strCell (some "nan") = strCell none :=
  ⟨by decide, by decide, by decide, rfl⟩

theorem digitChar_facts {d : Nat} (h : d < 10) :
    (digitChar d).toNat = 48 + d ∧ (digitChar d).isDigit = true ∧
    Char.toUpper (digitChar d) = digitChar d ∧ (digitChar d != 'E') = true ∧
    isWs (digitChar d) = false ∧ (digitChar d != '.') = true := by
  interval_cases d <;>
    exact ⟨by decide, by decide, by decide, by decide, by decide, by decide⟩

theorem natDigitsRevAux_mem :
    ∀ (fuel n : Nat) (c : Char), c ∈ natDigitsRevAux fuel n →
      ∃ d, d < 10 ∧ c = digitChar d := by
  intro fuel
  induction fuel with
  | zero => intro n c h; exact absurd h (by simp [natDigitsRevAux])
  | succ fuel ih =>
    intro n c h
    unfold natDigitsRevAux at h
    split at h
    · rename_i h10
      rw [List.mem_singleton] at h
      exact ⟨n, h10, h⟩
    · rcases List.mem_cons.mp h with h2 | h2
      · exact ⟨n % 10, Nat.mod_lt _ (by omega), h2⟩
      · exact ih (n / 10) c h2

theorem natDigitsRevAux_foldr :
    ∀ (fuel n : Nat), n < fuel →
      (natDigitsRevAux fuel n).foldr (fun c a => 10 * a + (c.toNat - 48)) 0 = n := by
  intro fuel
  induction fuel with
  | zero => intro n h; omega
  | succ fuel ih =>
    intro n h
    unfold natDigitsRevAux
    split
    · rename_i h10
      simp only [List.foldr]
      rw [(digitChar_facts h10).1]
      omega
    · rename_i h10
      have hd : n / 10 < n := Nat.div_lt_self (by omega) (by omega)
      simp only [List.foldr]
      rw [ih (n / 10) (by omega), (digitChar_facts (Nat.mod_lt n (by omega))).1]
      omega

theorem digitsVal_natRepr (n : Nat) : digitsVal (natRepr n) = n := by
  unfold digitsVal natRepr natDigitsRev
  rw [List.foldl_reverse]
  exact natDigitsRevAux_foldr (n + 1) n (by omega)

theorem digitsVal_replicate_zero (k : Nat) (cs : List Char) :
    digitsVal (List.replicate k '0' ++ cs) = digitsVal cs := by
  unfold digitsVal
  rw [List.foldl_append]
  have hz : List.foldl (fun a c => 10 * a + (c.toNat - 48)) 0
      (List.replicate k '0') = 0 := by
    induction k with
    | zero => rfl
    | succ k ihk =>
      rw [List.replicate_succ]
      exact ihk
  rw [hz]

theorem digitsVal_pad5_natRepr (n : Nat) : digitsVal (pad5 (natRepr n)) = n := by
  unfold pad5
  rw [digitsVal_replicate_zero, digitsVal_natRepr]

theorem pad5_natRepr_mem {n : Nat} {c : Char} (h : c ∈ pad5 (natRepr n)) :
    ∃ d, d < 10 ∧ c = digitChar d := by
  rcases List.mem_append.mp h with h2 | h2
  · exact ⟨0, by omega, by rw [List.eq_of_mem_replicate h2]; rfl⟩
  · exact natDigitsRevAux_mem _ _ c (List.mem_reverse.mp h2)

theorem natRepr_ne_nil (n : Nat) : natRepr n ≠ [] := by
  unfold natRepr natDigitsRev natDigitsRevAux
  split <;> simp

theorem map_toUpper_digits {l : List Char}
    (h : ∀ c ∈ l, ∃ d, d < 10 ∧ c = digitChar d) : l.map Char.toUpper = l := by
  induction l with
  | nil => rfl
  | cons a t ih =>
    obtain ⟨d, hd, ha⟩ := h a (List.mem_cons_self a t)
    rw [List.map_cons, ih (fun c hc => h c (List.mem_cons_of_mem _ hc)), ha,
      (digitChar_facts hd).2.2.1]

theorem filter_ne_E_digits {l : List Char}
    (h : ∀ c ∈ l, ∃ d, d < 10 ∧ c = digitChar d) :
    l.filter (fun c => c != 'E') = l := by
  rw [List.filter_eq_self]
  intro a ha
  obtain ⟨d, hd, ha2⟩ := h a ha
  rw [ha2]
  exact (digitChar_facts hd).2.2.2.1

theorem dropWhile_eq_self_of_all {p : Char → Bool} {l : List Char}
    (h : ∀ c ∈ l, p c = false) : l.dropWhile p = l := by
  cases l with
  | nil => rfl
  | cons a t =>
    rw [List.dropWhile_cons, if_neg (by rw [h a (List.mem_cons_self a t)]; simp)]

theorem takeWhile_eq_self_of_all {p : Char → Bool} {l : List Char}
    (h : ∀ c ∈ l, p c = true) : l.takeWhile p = l := by
  induction l with
  | nil => rfl
  | cons a t ih =>
    rw [List.takeWhile_cons, if_pos (h a (List.mem_cons_self a t)),
      ih (fun c hc => h c (List.mem_cons_of_mem _ hc))]

theorem stripChars_digits {l : List Char}
    (h : ∀ c ∈ l, ∃ d, d < 10 ∧ c = digitChar d) : stripChars l = l := by
  have hnows : ∀ c ∈ l, isWs c = false := by
    intro c hc
    obtain ⟨d, hd, hc2⟩ := h c hc
    rw [hc2]
    exact (digitChar_facts hd).2.2.2.2.1
  unfold stripChars
  rw [dropWhile_eq_self_of_all hnows,
    dropWhile_eq_self_of_all (fun c hc => hnows c (List.mem_reverse.mp hc)),
    List.reverse_reverse]

theorem cleanId_ePad (n : Nat) : cleanId (ePad n) = pad5 (natRepr n) := by
  show (stripChars ((('E' :: pad5 (natRepr n)).map Char.toUpper).filter
      (fun c => c != 'E'))).takeWhile (fun c => c != '.') = _
  rw [List.map_cons, (by decide : Char.toUpper 'E' = 'E'),
    map_toUpper_digits (fun c hc => pad5_natRepr_mem hc),
    List.filter_cons, if_neg (by decide),
    filter_ne_E_digits (fun c hc => pad5_natRepr_mem hc),
    stripChars_digits (fun c hc => pad5_natRepr_mem hc)]
  refine takeWhile_eq_self_of_all ?_
  intro c hc
  obtain ⟨d, hd, hc2⟩ := pad5_natRepr_mem hc
  rw [hc2]
  exact (digitChar_facts hd).2.2.2.2.2

/-- C9 (counterexample): canonicalization is not idempotent on its own
output — the raw code `"12 .5"` canonicalizes to `"E12 "` (the
non-numeric fallback keeps the inner space), and a second application
turns that into `"E00012"`. -/
theorem C9_idempotence_counterexample :
    formatArticleId "12 .5" = "E12 "
  ∧ formatArticleId "E12 " = "E00012"
  ∧ ("E12 " : String) ≠ "E00012" :=
  ⟨by decide, by decide, by decide⟩

/-- C9 (amended): canonicalization is idempotent on every already
canonical ID — every `E` + 5-zero-padded-integer string, `"E00042"` in
particular, is a fixed point — but not on all of its outputs (the
non-numeric fallback can emit inner whitespace that a second pass
strips, see the counterexample). -/
theorem C9_idempotence_amended :
    (∀ n : Nat, formatArticleId (ePad n) = ePad n)
  ∧ formatArticleId "E00042" = "E00042" := by
  constructor
  · intro n
    have hmem := fun c hc => pad5_natRepr_mem (n := n) (c := c) hc
    have hne : pad5 (natRepr n) ≠ [] := by
      intro hc
      exact natRepr_ne_nil n (List.append_eq_nil.mp hc).2
    have hdig : (pad5 (natRepr n)).all Char.isDigit = true := by
      rw [List.all_eq_true]
      intro c hc
      obtain ⟨d, hd, hc2⟩ := hmem c hc
      rw [hc2]
      exact (digitChar_facts hd).2.1
    unfold formatArticleId
    dsimp only
    rw [cleanId_ePad]
    rw [if_pos (by
      rw [hdig]
      have : (pad5 (natRepr n)).isEmpty = false := by
        cases hp : pad5 (natRepr n) with
        | nil => exact absurd hp hne
        | cons a t => rfl
      rw [this]
      rfl)]
    unfold ePad
    rw [digitsVal_pad5_natRepr]
  · decide
